import Mathlib

/-!
Verification of the pixel-playground gateway and canvas API.

Shallow embedding of the JavaScript sources:
* `canvas-api` service (src/unnamed/part_003): `PUT /api/pixel`, `PUT /api/pixels`.
* WebSocket gateway (src/unnamed/part_005, src/websocket-gateway/server.js):
  `handlePixelUpdate`, `broadcastToAll`, `broadcastToLocalClients`,
  `updatePodUserCount`, `broadcastAggregatedStats`, `broadcastStats`,
  the connection / close / set_username handlers and the 30-second interval.

JavaScript machine numbers are modelled as `JNum` (rationals plus NaN and the
two infinities) with IEEE comparison semantics: the code under scrutiny only
compares coordinates (`x < 0`, `x >= 50`), and those comparisons are exact on
this model.  JavaScript runtime values are modelled as `JValue`.
-/

/-- A JavaScript number: NaN, the two infinities, or a finite value.
Finite doubles are embedded into `ℚ`; the source only uses `<` and `>=`
on them, which `ℚ` models exactly. -/
inductive JNum where
  | nan
  | posInf
  | negInf
  | fin (q : ℚ)
deriving DecidableEq, Repr

/-- IEEE `<` on JavaScript numbers: any comparison with NaN is false. -/
def JNum.lt : JNum → JNum → Bool
  | .nan, _ => false
  | _, .nan => false
  | .negInf, .negInf => false
  | .negInf, _ => true
  | _, .negInf => false
  | .posInf, _ => false
  | .fin _, .posInf => true
  | .fin a, .fin b => decide (a < b)

/-- IEEE `>=` on JavaScript numbers: false when either side is NaN,
otherwise the negation of `<`. -/
def JNum.ge (a b : JNum) : Bool :=
  match a, b with
  | .nan, _ => false
  | _, .nan => false
  | _, _ => !(JNum.lt a b)

/-- A JavaScript runtime value, restricted to the shapes the handlers
inspect: undefined, null, booleans, numbers, strings, arrays, objects. -/
inductive JValue where
  | undefined
  | null
  | bool (b : Bool)
  | num (n : JNum)
  | str (s : String)
  | arr (elems : List JValue)
  | obj (fields : List (String × JValue))

/-- `typeof v === "number"`. -/
def JValue.isNumber : JValue → Bool
  | .num _ => true
  | _ => false

/-- `typeof v === "string"`. -/
def JValue.isString : JValue → Bool
  | .str _ => true
  | _ => false

/-- JavaScript truthiness: `undefined`, `null`, `false`, `NaN`, `0` and the
empty string are falsy; everything else (objects and arrays included) is
truthy. -/
def JValue.truthy : JValue → Bool
  | .undefined => false
  | .null => false
  | .bool b => b
  | .num .nan => false
  | .num (.fin q) => decide (q ≠ 0)
  | .num _ => true
  | .str s => decide (s ≠ "")
  | .arr _ => true
  | .obj _ => true

/-- JavaScript `a || b`: `a` when truthy, else `b`. -/
def jsOr (a b : JValue) : JValue :=
  if a.truthy then a else b

/-- JavaScript `o || d` where `o` is a string-or-absent field and `d` a
string default: the field when it is a non-empty string, else the default. -/
def jsStrOr (o : Option String) (d : String) : String :=
  match o with
  | some s => if s = "" then d else s
  | none => d

/-- Property access used by destructuring `const ⟨x, y, color⟩ = pixel`:
`none` when the base is `null`/`undefined` (a thrown TypeError), otherwise
the property value, `undefined` when absent (primitives have no `x`, `y` or
`color` properties). -/
def JValue.getField : JValue → String → Option JValue
  | .undefined, _ => none
  | .null, _ => none
  | .obj fs, k => some (((fs.find? (fun p => p.1 = k)).map Prod.snd).getD .undefined)
  | _, _ => some .undefined

/-- Matches `/^#[0-9A-F]{6}$/i` on one character class: a hex digit. -/
def isHexChar (c : Char) : Bool :=
  (decide ('0' ≤ c) && decide (c ≤ '9')) ||
  (decide ('A' ≤ c) && decide (c ≤ 'F')) ||
  (decide ('a' ≤ c) && decide (c ≤ 'f'))

/-- `/^#[0-9A-F]{6}$/i.test color`: a `#` followed by exactly six hex
digits, nothing else (JavaScript `$` without the `m` flag matches only the
very end of the string). -/
def colorRegexTest (s : String) : Bool :=
  match s.data with
  | '#' :: rest => rest.length == 6 && rest.all isHexChar
  | _ => false

/-- JSON.stringify round-trip for a field value sent in a request body:
non-finite numbers serialize as `null`; the other value shapes used here
survive unchanged. -/
def jsonRoundTrip : JValue → JValue
  | .num .nan => .null
  | .num .posInf => .null
  | .num .negInf => .null
  | v => v

/-- A canvas-api JSON response: HTTP status, optional `error` field,
optional `timestamp` field (present on success). -/
structure ApiResponse where
  status : Nat
  errorMsg : Option String
  timestamp : Option Nat
deriving DecidableEq, Repr

/-- `response.ok`: status in the 200–299 range. -/
def respOk (r : ApiResponse) : Bool :=
  decide (200 ≤ r.status) && decide (r.status < 300)

/-- The canvas-api `PUT /api/pixel` handler (src/unnamed/part_003 lines
132–174) with a healthy Redis write: 503 when Redis is down, 400 on a
type, bounds, or color-format violation, otherwise 200 with `Date.now()`
as the timestamp. -/
def putPixel (redisConnected : Bool) (now : Nat) (x y color : JValue) : ApiResponse :=
  if !redisConnected then
    { status := 503, errorMsg := some "Redis not connected", timestamp := none }
  else if !(x.isNumber && y.isNumber && color.isString) then
    { status := 400, errorMsg := some "Invalid data format", timestamp := none }
  else
    match x, y, color with
    | .num xn, .num yn, .str c =>
      if xn.lt (.fin 0) || xn.ge (.fin 50) || yn.lt (.fin 0) || yn.ge (.fin 50) then
        { status := 400, errorMsg := some "Coordinates out of bounds", timestamp := none }
      else if !(colorRegexTest c) then
        { status := 400, errorMsg := some "Invalid color format. Use hex format like #FF0000",
          timestamp := none }
      else
        { status := 200, errorMsg := none, timestamp := some now }
    | _, _, _ =>
      { status := 400, errorMsg := some "Invalid data format", timestamp := none }

/-- A server→client protocol message (spec §6). -/
inductive ServerMsg where
  | connected (message clientId : String)
  | pixelUpdated (x y : JNum) (color : String) (username : JValue) (timestamp : Nat)
  | stats (activeUsers : Nat) (timestamp : Nat)
  | userList (users : List String) (timestamp : Nat)
  | pong (timestamp : Nat)
  | errorMsg (message : String)

/-- Outcome of the gateway's `fetch` of `PUT /api/pixel`: the promise
rejects (network failure, caught by the surrounding try/catch), or a
response arrives. -/
inductive FetchOutcome where
  | networkError
  | response (resp : ApiResponse)

/-- Result of `handlePixelUpdate`: messages sent back to the sender, and
the message handed to `broadcastToAll` (if any). -/
structure PixelUpdateResult where
  toSender : List ServerMsg
  broadcast : Option ServerMsg

/-- The gateway `handlePixelUpdate` (src/unnamed/part_005 lines 204–267,
src/websocket-gateway/server.js lines 124–187).  Local validation is only
`typeof` checks; then the store write is issued and awaited, an error
reply is sent when it fails or returns non-ok, and only on an ok response
is the `pixel_updated` message built — with the store response's
timestamp and `username || clients.get(senderWs)?.username || "Anonymous"`. -/
def handlePixelUpdate (x y color username senderReg : JValue)
    (store : FetchOutcome) : PixelUpdateResult :=
  if !(x.isNumber && y.isNumber && color.isString) then
    { toSender := [.errorMsg "Invalid pixel data"], broadcast := none }
  else
    match store with
    | .networkError =>
      { toSender := [.errorMsg "Failed to process pixel update"], broadcast := none }
    | .response resp =>
      if !(respOk resp) then
        { toSender := [.errorMsg (jsStrOr resp.errorMsg "Failed to update pixel")],
          broadcast := none }
      else
        match x, y, color with
        | .num xn, .num yn, .str c =>
          { toSender := [],
            broadcast := some (.pixelUpdated xn yn c
              (jsOr username (jsOr senderReg (.str "Anonymous")))
              (resp.timestamp.getD 0)) }
        | _, _, _ =>
          { toSender := [.errorMsg "Invalid pixel data"], broadcast := none }

/-- The gateway→store pipeline with a healthy, reachable store: the body
`JSON.stringify({x, y, color})` is decoded by the canvas-api (non-finite
numbers arrive as `null`) and `handlePixelUpdate` consumes the response. -/
def composedPixelUpdate (now : Nat) (username senderReg : JValue)
    (x y color : JValue) : PixelUpdateResult :=
  handlePixelUpdate x y color username senderReg
    (.response (putPixel true now (jsonRoundTrip x) (jsonRoundTrip y) (jsonRoundTrip color)))

/-- One registered WebSocket client: the map value stored in `clients`
(`clientId`, `username` — `none` models JavaScript `null` — ) plus whether
the transport's `readyState` is `OPEN`. -/
structure Client where
  clientId : String
  username : Option String
  isOpen : Bool
deriving DecidableEq, Repr

/-- The registered username as the JavaScript value
`clients.get(senderWs)?.username`. -/
def regJValue : Option String → JValue
  | none => .null
  | some s => .str s

/-- State of the Redis pub/sub connection: never established (`redisReady`
stayed false), or established with `publish` either succeeding or
throwing. -/
inductive RelayState where
  | notReady
  | ready (publishOk : Bool)
deriving DecidableEq, Repr

/-- `broadcastToLocalClients` (src/unnamed/part_005 lines 288–304): send
the message to every client of this pod whose transport is open; a failed
`send` is only logged, the registry is not touched. -/
def broadcastToLocalClients (clients : List Client) (msg : ServerMsg) :
    List (String × ServerMsg) :=
  (clients.filter (fun c => c.isOpen)).map (fun c => (c.clientId, msg))

/-- Effect of one `broadcastToAll` call: the message published on the
Redis channel (if any) and the direct local sends it performed itself. -/
structure BroadcastEffect where
  published : Option ServerMsg
  localSends : List (String × ServerMsg)

/-- `broadcastToAll` (src/unnamed/part_005 lines 270–285): when Redis is
ready, publish to the broadcast channel and send nothing locally; when the
publish throws or Redis was never ready, fall back to a local-only
broadcast. -/
def broadcastToAll (relay : RelayState) (clients : List Client)
    (msg : ServerMsg) : BroadcastEffect :=
  match relay with
  | .ready true => { published := some msg, localSends := [] }
  | .ready false => { published := none, localSends := broadcastToLocalClients clients msg }
  | .notReady => { published := none, localSends := broadcastToLocalClients clients msg }

/-- The broadcast-channel subscription callback (src/unnamed/part_005
lines 58–66): a delivered relay message is re-broadcast to this pod's
local clients. -/
def onRelayMessage (clients : List Client) (msg : ServerMsg) :
    List (String × ServerMsg) :=
  broadcastToLocalClients clients msg

/-- All `pixel_updated` deliveries one accepted edit produces on the
originating instance: the origin-path local sends of `broadcastToAll`,
plus — when a message was published and the relay is healthy — the sends
performed by this instance's own subscription callback, which Redis
pub/sub invokes exactly once per published message (subscribers include
the publisher). -/
def editDeliveriesOnInstance (relay : RelayState) (clients : List Client)
    (msg : ServerMsg) : List (String × ServerMsg) :=
  let eff := broadcastToAll relay clients msg
  eff.localSends ++
    (match eff.published with
     | some m => onRelayMessage clients m
     | none => [])

/-- `info.username || "Anonymous"`: the health/stats display name of one
client (an empty stored username is falsy and also yields `"Anonymous"`). -/
def displayNameOf (u : Option String) : String :=
  match u with
  | some s => if s = "" then "Anonymous" else s
  | none => "Anonymous"

/-- The `usernames` list a pod stores in its presence snapshot
(src/unnamed/part_005 lines 314–316): every client's display name, with
the `"Anonymous"` entries filtered out. -/
def podUsernames (clients : List Client) : List String :=
  (clients.map (fun c => displayNameOf c.username)).filter
    (fun name => name ≠ "Anonymous")

/-- One pod's presence snapshot as stored in Redis. -/
structure PodSnapshot where
  count : Nat
  usernames : List String
  timestamp : Nat
deriving DecidableEq, Repr

/-- One live Redis key for the presence side-channel: key, value, and the
absolute time at which the TTL expires. -/
structure PresenceEntry where
  key : String
  snapshot : PodSnapshot
  expiresAt : Nat
deriving DecidableEq, Repr

/-- `setEx key ttl value` at absolute time `now`: replaces any entry under
the same key and arms its expiry at `now + ttl`. -/
def setEx (store : List PresenceEntry) (k : String) (ttl : Nat)
    (v : PodSnapshot) (now : Nat) : List PresenceEntry :=
  (store.filter (fun e => e.key ≠ k)) ++ [{ key := k, snapshot := v, expiresAt := now + ttl }]

/-- `KEYS pod:*:users` at absolute time `now`: expired entries are simply
absent — nothing deletes them explicitly. -/
def keysMatching (store : List PresenceEntry) (now : Nat) : List PresenceEntry :=
  store.filter (fun e => now < e.expiresAt)

/-- The Redis key this pod stores its presence snapshot under. -/
def podKey (podId : String) : String :=
  "pod:" ++ podId ++ ":users"

/-- `updatePodUserCount` (src/unnamed/part_005 lines 307–336): when Redis
is ready, store this pod's `{count, usernames, timestamp}` snapshot under
`pod:<id>:users` with a 60-second TTL (and publish a `user_update`
notice); otherwise do nothing. -/
def updatePodUserCount (redisReady : Bool) (podId : String)
    (clients : List Client) (store : List PresenceEntry) (now : Nat) :
    List PresenceEntry :=
  if redisReady then
    setEx store (podKey podId) 60
      { count := clients.length, usernames := podUsernames clients, timestamp := now } now
  else store

/-- `broadcastAggregatedStats` (src/unnamed/part_005 lines 339–389): with
Redis ready, scan all non-expired pod keys, sum the counts and concatenate
the username lists, then send a `stats` and a `user_list` message to every
local client; without Redis, send local-only `stats`. -/
def broadcastAggregatedStats (redisReady : Bool) (clients : List Client)
    (store : List PresenceEntry) (now : Nat) : List (String × ServerMsg) :=
  if !redisReady then
    broadcastToLocalClients clients (.stats clients.length now)
  else
    let pods := (keysMatching store now).map (fun e => e.snapshot)
    let totalUsers := pods.foldl (fun a p => a + p.count) 0
    let allUsernames := pods.foldl (fun a p => a ++ p.usernames) []
    broadcastToLocalClients clients (.stats totalUsers now) ++
      broadcastToLocalClients clients (.userList allUsernames now)

/-- `broadcastStats` (src/unnamed/part_005 lines 392–395): update this
pod's snapshot in Redis, then broadcast the freshly aggregated stats. -/
def broadcastStats (redisReady : Bool) (podId : String)
    (clients : List Client) (store : List PresenceEntry) (now : Nat) :
    List PresenceEntry × List (String × ServerMsg) :=
  let store' := updatePodUserCount redisReady podId clients store now
  (store', broadcastAggregatedStats redisReady clients store' now)

/-- Result of a gateway event handler: the client registry, the presence
store, and the messages sent (clientId × message). -/
structure HandlerResult where
  clients : List Client
  store : List PresenceEntry
  sent : List (String × ServerMsg)

/-- The 30-second `setInterval` body (src/unnamed/part_005 lines 409–415):
if any client is connected or Redis is ready, run `broadcastStats`.  It
sends no liveness probe and never closes or removes a session. -/
def intervalTick (redisReady : Bool) (podId : String)
    (clients : List Client) (store : List PresenceEntry) (now : Nat) :
    HandlerResult :=
  if clients.length > 0 || redisReady then
    let r := broadcastStats redisReady podId clients store now
    { clients := clients, store := r.1, sent := r.2 }
  else
    { clients := clients, store := store, sent := [] }

/-- The `wss.on("connection")` handler's registry/presence effect
(src/unnamed/part_005 lines 104–128): register the new client (username
`null`, transport open), send the welcome message, run `broadcastStats`. -/
def handleConnection (redisReady : Bool) (podId : String)
    (clients : List Client) (store : List PresenceEntry)
    (newId : String) (now : Nat) : HandlerResult :=
  let clients' := clients ++ [{ clientId := newId, username := none, isOpen := true }]
  let r := broadcastStats redisReady podId clients' store now
  { clients := clients', store := r.1,
    sent := (newId, .connected "Connected to Cloud Pixel Playground" newId) :: r.2 }

/-- The `ws.on("close")` handler (src/unnamed/part_005 lines 162–173):
delete the client from the registry and run `broadcastStats`. -/
def handleClose (redisReady : Bool) (podId : String)
    (clients : List Client) (store : List PresenceEntry)
    (closedId : String) (now : Nat) : HandlerResult :=
  let clients' := clients.filter (fun c => c.clientId ≠ closedId)
  let r := broadcastStats redisReady podId clients' store now
  { clients := clients', store := r.1, sent := r.2 }

/-- JavaScript `username.trim().substring(0, 20)`. -/
def sanitizeName (s : String) : String :=
  (s.trim).take 20

/-- `handleSetUsername` (src/unnamed/part_005 lines 183–201): when the
`username` field is a truthy string and the sender is registered, store
the sanitized name on the session and run `broadcastStats`; otherwise the
message is silently ignored. -/
def handleSetUsername (redisReady : Bool) (podId : String)
    (clients : List Client) (store : List PresenceEntry)
    (senderId : String) (username : JValue) (now : Nat) : HandlerResult :=
  match username with
  | .str s =>
    if s ≠ "" ∧ clients.any (fun c => c.clientId = senderId) then
      let clients' := clients.map (fun c =>
        if c.clientId = senderId then { c with username := some (sanitizeName s) } else c)
      let r := broadcastStats redisReady podId clients' store now
      { clients := clients', store := r.1, sent := r.2 }
    else
      { clients := clients, store := store, sent := [] }
  | _ => { clients := clients, store := store, sent := [] }

/-- A `PUT /api/pixels` JSON response. -/
structure BatchResponse where
  status : Nat
  success : Bool
  updated : Option Nat
  errorMsg : Option String
deriving DecidableEq, Repr

/-- One iteration of the batch loop (src/unnamed/part_003 lines 190–210):
destructuring a `null`/`undefined` entry throws (`Except.error`, caught by
the endpoint's try/catch); otherwise the entry is skipped (`none`) unless
its coordinates are numbers passing the bounds check and its color is a
string matching the hex pattern, in which case it yields the key/color
write. -/
def processEntry (e : JValue) : Except Unit (Option ((JNum × JNum) × String)) :=
  match e.getField "x", e.getField "y", e.getField "color" with
  | some vx, some vy, some vc =>
    .ok (match vx, vy, vc with
      | .num xn, .num yn, .str c =>
        if xn.lt (.fin 0) || xn.ge (.fin 50) || yn.lt (.fin 0) || yn.ge (.fin 50) then
          none
        else if !(colorRegexTest c) then
          none
        else
          some ((xn, yn), c)
      | _, _, _ => none)
  | _, _, _ => .error ()

/-- `updates[key] = color` on the JavaScript accumulator object: overwrite
the existing key in place, or append a new one. -/
def upsertKey (al : List ((JNum × JNum) × String)) (k : JNum × JNum)
    (c : String) : List ((JNum × JNum) × String) :=
  if al.any (fun kc => kc.1 = k) then
    al.map (fun kc => if kc.1 = k then (k, c) else kc)
  else
    al ++ [(k, c)]

/-- The batch loop: fold the entries, upserting each valid one, stopping
with an exception as soon as destructuring an entry throws. -/
def batchUpdates (entries : List JValue) :
    Except Unit (List ((JNum × JNum) × String)) :=
  entries.foldlM
    (fun acc e => (processEntry e).map (fun r =>
      match r with
      | none => acc
      | some (k, c) => upsertKey acc k c))
    []

/-- The write each valid entry contributes, in request order (skipped and
throwing entries contribute nothing). -/
def validWrites (entries : List JValue) : List ((JNum × JNum) × String) :=
  entries.filterMap (fun e =>
    match processEntry e with
    | .ok r => r
    | .error _ => none)

/-- The canvas-api `PUT /api/pixels` handler (src/unnamed/part_003 lines
177–225) with a healthy Redis: 503 when Redis is down, 400 when `pixels`
is not an array, 500 when the loop throws, otherwise 200 with
`updated = Object.keys(updates).length`. -/
def putPixels (redisConnected : Bool) (pixels : JValue) : BatchResponse :=
  if !redisConnected then
    { status := 503, success := false, updated := none,
      errorMsg := some "Redis not connected" }
  else
    match pixels with
    | .arr entries =>
      match batchUpdates entries with
      | .error _ =>
        { status := 500, success := false, updated := none,
          errorMsg := some "Failed to update pixels" }
      | .ok updates =>
        { status := 200, success := true, updated := some updates.length,
          errorMsg := none }
    | _ =>
      { status := 400, success := false, updated := none,
        errorMsg := some "Pixels must be an array" }

/-- Assoc-list lookup on the accumulated updates object. -/
def lookupKey (al : List ((JNum × JNum) × String)) (k : JNum × JNum) :
    Option String :=
  (al.find? (fun kc => kc.1 = k)).map Prod.snd

/-- The color of the last write to coordinate `k` in a write list. -/
def lastWrite (l : List ((JNum × JNum) × String)) (k : JNum × JNum) :
    Option String :=
  (l.reverse.find? (fun kc => kc.1 = k)).map Prod.snd

/-- The broadcast path of one accepted edit as a registry transformer:
`broadcastToAll`/`broadcastToLocalClients` contain no `clients.delete`, no
`ws.close`/`terminate` — a failed publish or send is caught and logged —
so the registry component is returned unchanged. -/
def editBroadcastStep (relay : RelayState) (clients : List Client)
    (msg : ServerMsg) : List Client × BroadcastEffect :=
  (clients, broadcastToAll relay clients msg)

/-- A message's optional `username` field as a JavaScript value: absent
fields destructure to `undefined`. -/
def msgField : Option String → JValue
  | none => .undefined
  | some s => .str s

/-- The username the spec assigns to a broadcast edit: the message's
`username` field when present and non-empty, else the sender's registered
display name when one is set (non-null and non-empty), else
`"Anonymous"`. -/
def specUsername (mu reg : Option String) : String :=
  match mu with
  | some s =>
    if s ≠ "" then s
    else match reg with
      | some r => if r ≠ "" then r else "Anonymous"
      | none => "Anonymous"
  | none =>
    match reg with
    | some r => if r ≠ "" then r else "Anonymous"
    | none => "Anonymous"

/-- Acceptance condition of the gateway→store pipeline as the code
implements it: both coordinates are finite numbers passing the bounds
comparisons (equivalently `0 ≤ q < 50` over the rationals, fractional
values included) and the color is a string matching the hex pattern. -/
def codeAccepts (x y color : JValue) : Bool :=
  match x, y, color with
  | .num (.fin qx), .num (.fin qy), .str c =>
    decide (0 ≤ qx) && decide (qx < 50) && decide (0 ≤ qy) &&
      decide (qy < 50) && colorRegexTest c
  | _, _, _ => false

/-- Acceptance condition exactly as claim C3 states it: `x` and `y` are
integers with `0 ≤ x, y < 50` and the color is a string matching
`^#[0-9A-Fa-f]{6}$`. -/
def claimedAccepts (x y color : JValue) : Bool :=
  match x, y, color with
  | .num (.fin qx), .num (.fin qy), .str c =>
    decide (qx.den = 1) && decide (0 ≤ qx.num) && decide (qx.num < 50) &&
      decide (qy.den = 1) && decide (0 ≤ qy.num) && decide (qy.num < 50) &&
      colorRegexTest c
  | _, _, _ => false

/-- The list the code puts into the `user_list` message: the per-instance
username lists of all non-expired snapshots, concatenated in key-scan
order — no deduplication. -/
def aggregatedUserList (store : List PresenceEntry) (now : Nat) : List String :=
  ((keysMatching store now).map (fun e => e.snapshot.usernames)).flatten

/-- A presence entry as `updatePodUserCount` stores it for one session
named `"alice"` on instance `pid`, an hour before expiry. -/
def aliceEntry (pid : String) : PresenceEntry :=
  { key := podKey pid,
    snapshot := { count := 1, usernames := ["alice"], timestamp := 0 },
    expiresAt := 100 }

/-- Claim C1, counterexample: for the validated edit `(5, 5, "#FF0000")`
the broadcast is blocked on, and depends on, the completion of the Grid
Store write — with an ok store response the edit is broadcast (with the
store response's timestamp), while with the same input and an unreachable
store no broadcast happens at all. -/
theorem broadcast_blocked_on_store_write :
    (handlePixelUpdate (.num (.fin 5)) (.num (.fin 5)) (.str "#FF0000") .undefined .null
      (.response { status := 200, errorMsg := none, timestamp := some 42 })).broadcast =
        some (.pixelUpdated (.fin 5) (.fin 5) "#FF0000" (.str "Anonymous") 42)
    ∧ (handlePixelUpdate (.num (.fin 5)) (.num (.fin 5)) (.str "#FF0000") .undefined .null
      .networkError).broadcast = none :=
  ⟨rfl, rfl⟩

/-- Claim C1, amended: for every pixel_update that passes the gateway's
local validation, the gateway first issues the `writeCell`
(`PUT /api/pixel`) and awaits its completion; the broadcast happens only
after, and only if, the store write returns an ok response, and the
broadcast timestamp is taken from the store response. -/
theorem broadcast_iff_store_write_ok (xn yn : JNum) (c : String)
    (u reg : JValue) :
    (handlePixelUpdate (.num xn) (.num yn) (.str c) u reg .networkError).broadcast = none
    ∧ (∀ resp : ApiResponse, respOk resp = false →
        (handlePixelUpdate (.num xn) (.num yn) (.str c) u reg (.response resp)).broadcast = none)
    ∧ (∀ resp : ApiResponse, respOk resp = true →
        (handlePixelUpdate (.num xn) (.num yn) (.str c) u reg (.response resp)).broadcast =
          some (.pixelUpdated xn yn c (jsOr u (jsOr reg (.str "Anonymous")))
            (resp.timestamp.getD 0))) := by
  refine ⟨rfl, ?_, ?_⟩
  · intro resp h
    simp [handlePixelUpdate, JValue.isNumber, JValue.isString, h]
  · intro resp h
    simp [handlePixelUpdate, JValue.isNumber, JValue.isString, h]

/-- Witness for `broadcast_iff_store_write_ok` at a concrete input. -/
theorem broadcast_iff_store_write_ok_witness :
    respOk { status := 503, errorMsg := some "Redis not connected", timestamp := none } = false
    ∧ (handlePixelUpdate (.num (.fin 5)) (.num (.fin 5)) (.str "#FF0000") .undefined .null
        (.response
          { status := 503, errorMsg := some "Redis not connected", timestamp := none })
        ).broadcast = none :=
  ⟨rfl, (broadcast_iff_store_write_ok (.fin 5) (.fin 5) "#FF0000" .undefined .null).2.1
    { status := 503, errorMsg := some "Redis not connected", timestamp := none } rfl⟩

/-- Claim C2, counterexample: when the Grid Store write for the validated
edit `(5, 5, "#FF0000")` fails (store unreachable), the originating client
does receive an error message and the edit is not broadcast — the failure
is not merely logged. -/
theorem store_failure_sends_error_to_client :
    (handlePixelUpdate (.num (.fin 5)) (.num (.fin 5)) (.str "#FF0000") .undefined .null
      .networkError).toSender = [.errorMsg "Failed to process pixel update"]
    ∧ (handlePixelUpdate (.num (.fin 5)) (.num (.fin 5)) (.str "#FF0000") .undefined .null
      .networkError).broadcast = none :=
  ⟨rfl, rfl⟩

/-- Claim C2, amended: if the Grid Store write for a validated edit fails
(store unreachable, or a non-ok response), the originating client is sent
an `error` message — built from the store response's `error` field when
one is present — and no broadcast occurs at all (there is nothing to
retract, because the broadcast had not yet happened). -/
theorem store_failure_error_reply_no_broadcast (xn yn : JNum) (c : String)
    (u reg : JValue) :
    ((handlePixelUpdate (.num xn) (.num yn) (.str c) u reg .networkError).toSender =
        [.errorMsg "Failed to process pixel update"]
      ∧ (handlePixelUpdate (.num xn) (.num yn) (.str c) u reg .networkError).broadcast = none)
    ∧ (∀ resp : ApiResponse, respOk resp = false →
        (handlePixelUpdate (.num xn) (.num yn) (.str c) u reg (.response resp)).toSender =
          [.errorMsg (jsStrOr resp.errorMsg "Failed to update pixel")]
        ∧ (handlePixelUpdate (.num xn) (.num yn) (.str c) u reg (.response resp)).broadcast =
          none) := by
  refine ⟨⟨rfl, rfl⟩, ?_⟩
  intro resp h
  constructor <;> simp [handlePixelUpdate, JValue.isNumber, JValue.isString, h]

/-- Witness for `store_failure_error_reply_no_broadcast` at a concrete
non-ok store response. -/
theorem store_failure_error_reply_no_broadcast_witness :
    respOk
      { status := 400, errorMsg := some "Coordinates out of bounds", timestamp := none } = false
    ∧ (handlePixelUpdate (.num (.fin 99)) (.num (.fin 5)) (.str "#FF0000") .undefined .null
        (.response
          { status := 400, errorMsg := some "Coordinates out of bounds", timestamp := none })
        ).toSender = [.errorMsg "Coordinates out of bounds"] :=
  ⟨rfl, ((store_failure_error_reply_no_broadcast (.fin 99) (.fin 5) "#FF0000" .undefined .null).2
    { status := 400, errorMsg := some "Coordinates out of bounds", timestamp := none } rfl).1⟩

/-- Claim C5: the 30-second interval (the only periodic task in the
gateway) never removes any session — it only broadcasts stats; a session
that answers nothing is still registered after two consecutive interval
ticks and still receives subsequent broadcasts.  The repository's own
README and resilience notes document a ping/pong liveness monitor that
terminates unresponsive connections, but no such code exists in either
gateway variant. -/
theorem interval_tick_never_evicts_sessions :
    (∀ (rr : Bool) (pid : String) (cs : List Client) (st : List PresenceEntry) (now : Nat),
      (intervalTick rr pid cs st now).clients = cs)
    ∧ (intervalTick false "podA"
        (intervalTick false "podA" [{ clientId := "zombie", username := none, isOpen := true }]
          [] 30).clients
        (intervalTick false "podA" [{ clientId := "zombie", username := none, isOpen := true }]
          [] 30).store 60).clients =
        [{ clientId := "zombie", username := none, isOpen := true }]
    ∧ broadcastToLocalClients
        [{ clientId := "zombie", username := none, isOpen := true }] (.stats 1 90) =
        [("zombie", .stats 1 90)] := by
  refine ⟨?_, rfl, rfl⟩
  intro rr pid cs st now
  unfold intervalTick
  split <;> rfl

/-- Claim C6: with a healthy relay, one accepted edit on an instance whose
sessions are all open produces exactly one `pixel_updated` delivery per
session (the sender included), all carrying the identical message; the
origin path sends nothing locally — local delivery happens only from the
relay-receipt (subscription) path. -/
theorem healthy_relay_fanout_exactly_once (clients : List Client)
    (msg : ServerMsg) (hopen : ∀ c ∈ clients, c.isOpen = true) :
    editDeliveriesOnInstance (.ready true) clients msg =
      clients.map (fun c => (c.clientId, msg))
    ∧ (broadcastToAll (.ready true) clients msg).localSends = []
    ∧ (editDeliveriesOnInstance (.ready true) clients msg).length = clients.length := by
  have hfilter : clients.filter (fun c => c.isOpen) = clients :=
    List.filter_eq_self.mpr (by simpa using hopen)
  refine ⟨?_, rfl, ?_⟩
  · simp [editDeliveriesOnInstance, broadcastToAll, onRelayMessage,
      broadcastToLocalClients, hfilter]
  · simp [editDeliveriesOnInstance, broadcastToAll, onRelayMessage,
      broadcastToLocalClients, hfilter]

/-- Witness for `healthy_relay_fanout_exactly_once`: two open sessions
each receive the edit exactly once. -/
theorem healthy_relay_fanout_exactly_once_witness :
    (∀ c ∈ [{ clientId := "a", username := none, isOpen := true },
            { clientId := "b", username := some "bob", isOpen := true }], Client.isOpen c = true)
    ∧ editDeliveriesOnInstance (.ready true)
        [{ clientId := "a", username := none, isOpen := true },
         { clientId := "b", username := some "bob", isOpen := true }] (.pong 1) =
        [("a", .pong 1), ("b", .pong 1)] := by
  refine ⟨by decide, ?_⟩
  exact (healthy_relay_fanout_exactly_once
    [{ clientId := "a", username := none, isOpen := true },
     { clientId := "b", username := some "bob", isOpen := true }] (.pong 1) (by decide)).1

/-- Claim C7: when the Relay Bus is unavailable — never connected, or the
publish throws — an accepted edit is still delivered to every open session
of this instance (local-only fallback), nothing is published, and the
session registry is untouched (no session is closed). -/
theorem relay_down_local_fallback (relay : RelayState) (clients : List Client)
    (msg : ServerMsg) (hdown : relay = .notReady ∨ relay = .ready false) :
    (editBroadcastStep relay clients msg).1 = clients
    ∧ (editBroadcastStep relay clients msg).2.published = none
    ∧ (editBroadcastStep relay clients msg).2.localSends =
        broadcastToLocalClients clients msg
    ∧ ((∀ c ∈ clients, c.isOpen = true) →
        (editBroadcastStep relay clients msg).2.localSends =
          clients.map (fun c => (c.clientId, msg))) := by
  have hbc : broadcastToAll relay clients msg =
      { published := none, localSends := broadcastToLocalClients clients msg } := by
    rcases hdown with h | h <;> subst h <;> rfl
  refine ⟨rfl, ?_, ?_, ?_⟩
  · simp [editBroadcastStep, hbc]
  · simp [editBroadcastStep, hbc]
  · intro hopen
    have hfilter : clients.filter (fun c => c.isOpen) = clients :=
      List.filter_eq_self.mpr (by simpa using hopen)
    simp [editBroadcastStep, hbc, broadcastToLocalClients, hfilter]

/-- Witness for `relay_down_local_fallback`: with the relay never
connected, both open sessions still receive the edit and the registry is
unchanged. -/
theorem relay_down_local_fallback_witness :
    ((RelayState.notReady = RelayState.notReady ∨
        RelayState.notReady = RelayState.ready false)
    ∧ (editBroadcastStep .notReady
        [{ clientId := "a", username := none, isOpen := true },
         { clientId := "b", username := some "bob", isOpen := true }] (.pong 2)).1 =
        [{ clientId := "a", username := none, isOpen := true },
         { clientId := "b", username := some "bob", isOpen := true }]
    ∧ (editBroadcastStep .notReady
        [{ clientId := "a", username := none, isOpen := true },
         { clientId := "b", username := some "bob", isOpen := true }] (.pong 2)).2.published =
        none) := by
  refine ⟨Or.inl rfl, ?_, ?_⟩
  · exact (relay_down_local_fallback .notReady
      [{ clientId := "a", username := none, isOpen := true },
       { clientId := "b", username := some "bob", isOpen := true }] (.pong 2) (Or.inl rfl)).1
  · exact (relay_down_local_fallback .notReady
      [{ clientId := "a", username := none, isOpen := true },
       { clientId := "b", username := some "bob", isOpen := true }] (.pong 2) (Or.inl rfl)).2.1

/-- Claim C9: in every broadcast `pixel_updated` message the `username`
field is the message's `username` string when present and non-empty,
otherwise the sender's registered display name when one is set (an empty
registered name counts as unset, matching JavaScript truthiness), and
otherwise `"Anonymous"` — in particular an edit from a session with no
name set and no `username` field broadcasts as `"Anonymous"`. -/
theorem pixel_updated_username_resolution (xn yn : JNum) (c : String)
    (mu reg : Option String) (resp : ApiResponse) (h : respOk resp = true) :
    (handlePixelUpdate (.num xn) (.num yn) (.str c) (msgField mu) (regJValue reg)
      (.response resp)).broadcast =
      some (.pixelUpdated xn yn c (.str (specUsername mu reg)) (resp.timestamp.getD 0)) := by
  have hres : jsOr (msgField mu) (jsOr (regJValue reg) (.str "Anonymous")) =
      .str (specUsername mu reg) := by
    cases mu with
    | none =>
      cases reg with
      | none => rfl
      | some r =>
        by_cases hr : r = "" <;>
          simp [msgField, regJValue, jsOr, JValue.truthy, specUsername, hr]
    | some s =>
      cases reg with
      | none =>
        by_cases hs : s = "" <;>
          simp [msgField, regJValue, jsOr, JValue.truthy, specUsername, hs]
      | some r =>
        by_cases hs : s = "" <;> by_cases hr : r = "" <;>
          simp [msgField, regJValue, jsOr, JValue.truthy, specUsername, hs, hr]
  simp [handlePixelUpdate, JValue.isNumber, JValue.isString, h, hres]

/-- Witness for `pixel_updated_username_resolution`: the spec's concrete
scenario — no name set, no `username` field — broadcasts `"Anonymous"`. -/
theorem pixel_updated_username_resolution_witness :
    respOk { status := 200, errorMsg := none, timestamp := some 5 } = true
    ∧ (handlePixelUpdate (.num (.fin 5)) (.num (.fin 5)) (.str "#FF0000")
        (msgField none) (regJValue none)
        (.response { status := 200, errorMsg := none, timestamp := some 5 })).broadcast =
        some (.pixelUpdated (.fin 5) (.fin 5) "#FF0000" (.str "Anonymous") 5) :=
  ⟨rfl, pixel_updated_username_resolution (.fin 5) (.fin 5) "#FF0000" none none
    { status := 200, errorMsg := none, timestamp := some 5 } rfl⟩

/-- Bounds check `x < 0 || x >= 50 || y < 0 || y >= 50` on finite numbers,
as a proposition. -/
theorem jnum_bounds_pair (qx qy : ℚ) :
    (JNum.lt (.fin qx) (.fin 0) || JNum.ge (.fin qx) (.fin 50) ||
      JNum.lt (.fin qy) (.fin 0) || JNum.ge (.fin qy) (.fin 50)) = false ↔
      ((0 ≤ qx ∧ qx < 50) ∧ (0 ≤ qy ∧ qy < 50)) := by
  simp [JNum.lt, JNum.ge, not_lt]
  tauto

/-- `putPixel` on well-typed finite input, in propositional form. -/
theorem putPixel_fin (now : Nat) (qx qy : ℚ) (c : String) :
    putPixel true now (.num (.fin qx)) (.num (.fin qy)) (.str c) =
      if (0 ≤ qx ∧ qx < 50) ∧ (0 ≤ qy ∧ qy < 50) then
        if colorRegexTest c then
          { status := 200, errorMsg := none, timestamp := some now }
        else
          { status := 400,
            errorMsg := some "Invalid color format. Use hex format like #FF0000",
            timestamp := none }
      else
        { status := 400, errorMsg := some "Coordinates out of bounds", timestamp := none } := by
  by_cases hb : (0 ≤ qx ∧ qx < 50) ∧ (0 ≤ qy ∧ qy < 50)
  · have hfalse : (JNum.lt (.fin qx) (.fin 0) || JNum.ge (.fin qx) (.fin 50) ||
        JNum.lt (.fin qy) (.fin 0) || JNum.ge (.fin qy) (.fin 50)) = false :=
      (jnum_bounds_pair qx qy).mpr hb
    by_cases hc : colorRegexTest c <;>
      simp [putPixel, JValue.isNumber, JValue.isString, hfalse, hb, hc]
  · have htrue : (JNum.lt (.fin qx) (.fin 0) || JNum.ge (.fin qx) (.fin 50) ||
        JNum.lt (.fin qy) (.fin 0) || JNum.ge (.fin qy) (.fin 50)) = true := by
      rcases Bool.eq_false_or_eq_true (JNum.lt (.fin qx) (.fin 0) ||
        JNum.ge (.fin qx) (.fin 50) || JNum.lt (.fin qy) (.fin 0) ||
        JNum.ge (.fin qy) (.fin 50)) with h | h
      · exact h
      · exact absurd ((jnum_bounds_pair qx qy).mp h) hb
    simp [putPixel, JValue.isNumber, JValue.isString, htrue, hb]

/-- Claim C3, counterexample: the non-integer coordinate `x = 1/2` (with
`y = 5`, color `"#FF0000"`) is outside the claim's acceptance set, yet the
pipeline accepts it — the edit is broadcast and the sender receives no
error — so acceptance is not restricted to integer coordinates. -/
theorem noninteger_coordinate_accepted :
    claimedAccepts (.num (.fin (Rat.mk' 1 2))) (.num (.fin 5)) (.str "#FF0000") = false
    ∧ (composedPixelUpdate 7 .undefined .null
        (.num (.fin (Rat.mk' 1 2))) (.num (.fin 5)) (.str "#FF0000")).broadcast.isSome = true
    ∧ (composedPixelUpdate 7 .undefined .null
        (.num (.fin (Rat.mk' 1 2))) (.num (.fin 5)) (.str "#FF0000")).toSender = [] :=
  ⟨rfl, rfl, rfl⟩

/-- Claim C3, amended: a `pixel_update` is accepted and broadcast iff `x`
and `y` are finite numbers — integer or not — with `0 ≤ x, y < 50` and
the color is a string matching `^#[0-9A-Fa-f]{6}$` (NaN and infinite
coordinates are rejected because `JSON.stringify` turns them into `null`
on the way to the store); in every other case the sender receives exactly
one `error` message and no broadcast occurs. -/
theorem pixel_validation_accepts_iff (now : Nat) (u reg : JValue)
    (x y color : JValue) :
    ((composedPixelUpdate now u reg x y color).broadcast.isSome = codeAccepts x y color)
    ∧ (codeAccepts x y color = true →
        (composedPixelUpdate now u reg x y color).toSender = [])
    ∧ (codeAccepts x y color = false →
        (composedPixelUpdate now u reg x y color).broadcast = none
        ∧ ∃ m, (composedPixelUpdate now u reg x y color).toSender = [.errorMsg m]) := by
  by_cases htype : (JValue.isNumber x && JValue.isNumber y && JValue.isString color) = true
  · obtain ⟨nx, rfl⟩ : ∃ nx, x = JValue.num nx := by
      cases x <;> first | exact ⟨_, rfl⟩ | simp_all [JValue.isNumber]
    obtain ⟨ny, rfl⟩ : ∃ ny, y = JValue.num ny := by
      cases y <;> first | exact ⟨_, rfl⟩ | simp_all [JValue.isNumber]
    obtain ⟨c, rfl⟩ : ∃ c, color = JValue.str c := by
      cases color <;> first | exact ⟨_, rfl⟩ | simp_all [JValue.isString]
    cases nx with
    | fin qx =>
      cases ny with
      | fin qy =>
        by_cases hb : (0 ≤ qx ∧ qx < 50) ∧ (0 ≤ qy ∧ qy < 50)
        · by_cases hc : colorRegexTest c = true
          · have hput := putPixel_fin now qx qy c
            rw [if_pos hb, if_pos hc] at hput
            have hcode : codeAccepts (.num (.fin qx)) (.num (.fin qy)) (.str c) = true := by
              simp [codeAccepts, hb.1.1, hb.1.2, hb.2.1, hb.2.2, hc]
            refine ⟨?_, fun _ => ?_, fun hfalse => absurd hcode (by simp [hfalse])⟩
            · simp [composedPixelUpdate, jsonRoundTrip, hput, handlePixelUpdate,
                JValue.isNumber, JValue.isString, respOk, hcode]
            · simp [composedPixelUpdate, jsonRoundTrip, hput, handlePixelUpdate,
                JValue.isNumber, JValue.isString, respOk]
          · have hput := putPixel_fin now qx qy c
            rw [if_pos hb, if_neg (by simpa using hc)] at hput
            have hcode : codeAccepts (.num (.fin qx)) (.num (.fin qy)) (.str c) = false := by
              simp [codeAccepts, hc]
            refine ⟨?_, fun htrue => absurd htrue (by simp [hcode]),
              fun _ => ⟨?_, "Invalid color format. Use hex format like #FF0000", ?_⟩⟩
            · simp [composedPixelUpdate, jsonRoundTrip, hput, handlePixelUpdate,
                JValue.isNumber, JValue.isString, respOk, hcode]
            · simp [composedPixelUpdate, jsonRoundTrip, hput, handlePixelUpdate,
                JValue.isNumber, JValue.isString, respOk]
            · simp [composedPixelUpdate, jsonRoundTrip, hput, handlePixelUpdate,
                JValue.isNumber, JValue.isString, respOk, jsStrOr]
        · have hput := putPixel_fin now qx qy c
          rw [if_neg hb] at hput
          have hcode : codeAccepts (.num (.fin qx)) (.num (.fin qy)) (.str c) = false := by
            rcases not_and_or.mp hb with h | h <;>
              rcases not_and_or.mp h with h' | h' <;>
                simp [codeAccepts, not_le.mp, h']
          refine ⟨?_, fun htrue => absurd htrue (by simp [hcode]),
            fun _ => ⟨?_, "Coordinates out of bounds", ?_⟩⟩
          · simp [composedPixelUpdate, jsonRoundTrip, hput, handlePixelUpdate,
              JValue.isNumber, JValue.isString, respOk, hcode]
          · simp [composedPixelUpdate, jsonRoundTrip, hput, handlePixelUpdate,
              JValue.isNumber, JValue.isString, respOk]
          · simp [composedPixelUpdate, jsonRoundTrip, hput, handlePixelUpdate,
              JValue.isNumber, JValue.isString, respOk, jsStrOr]
      | nan =>
        exact ⟨rfl, fun h => Bool.noConfusion h, fun _ => ⟨rfl, "Invalid data format", rfl⟩⟩
      | posInf =>
        exact ⟨rfl, fun h => Bool.noConfusion h, fun _ => ⟨rfl, "Invalid data format", rfl⟩⟩
      | negInf =>
        exact ⟨rfl, fun h => Bool.noConfusion h, fun _ => ⟨rfl, "Invalid data format", rfl⟩⟩
    | nan =>
      exact ⟨rfl, fun h => Bool.noConfusion h, fun _ => ⟨rfl, "Invalid data format", rfl⟩⟩
    | posInf =>
      exact ⟨rfl, fun h => Bool.noConfusion h, fun _ => ⟨rfl, "Invalid data format", rfl⟩⟩
    | negInf =>
      exact ⟨rfl, fun h => Bool.noConfusion h, fun _ => ⟨rfl, "Invalid data format", rfl⟩⟩
  · have hfail : (JValue.isNumber x && JValue.isNumber y && JValue.isString color) = false :=
      Bool.eq_false_iff.mpr htype
    have hhandler : ∀ st : FetchOutcome, handlePixelUpdate x y color u reg st =
        { toSender := [.errorMsg "Invalid pixel data"], broadcast := none } := by
      intro st
      simp [handlePixelUpdate, hfail]
    have hcode : codeAccepts x y color = false := by
      cases x <;> cases y <;> cases color <;>
        simp_all [JValue.isNumber, JValue.isString, codeAccepts]
    refine ⟨?_, fun htrue => absurd htrue (by simp [hcode]),
      fun _ => ⟨?_, "Invalid pixel data", ?_⟩⟩
    · simp [composedPixelUpdate, hhandler, hcode]
    · simp [composedPixelUpdate, hhandler]
    · simp [composedPixelUpdate, hhandler]

/-- Witness for `pixel_validation_accepts_iff`, rejection branch: the
spec's out-of-bounds scenario `x = 50` yields an error reply and no
broadcast. -/
theorem pixel_validation_accepts_iff_witness :
    codeAccepts (.num (.fin 50)) (.num (.fin 5)) (.str "#FF0000") = false
    ∧ (composedPixelUpdate 7 .undefined .null
        (.num (.fin 50)) (.num (.fin 5)) (.str "#FF0000")).broadcast = none :=
  ⟨rfl, ((pixel_validation_accepts_iff 7 .undefined .null
    (.num (.fin 50)) (.num (.fin 5)) (.str "#FF0000")).2.2 rfl).1⟩

/-- Folding list append from an accumulator is the accumulator followed by
the concatenation. -/
theorem foldl_append_usernames (l : List PodSnapshot) (init : List String) :
    l.foldl (fun a p => a ++ p.usernames) init =
      init ++ (l.map (fun p => p.usernames)).flatten := by
  induction l generalizing init with
  | nil => simp
  | cons p ps ih => simp [ih, List.append_assoc]

/-- Every name a pod stores in its snapshot is non-empty and is not
`"Anonymous"`. -/
theorem podUsernames_mem (l : List Client) (u : String)
    (h : u ∈ podUsernames l) : u ≠ "" ∧ u ≠ "Anonymous" := by
  unfold podUsernames at h
  have h2 := List.of_mem_filter h
  have h1 := List.mem_of_mem_filter h
  obtain ⟨c, -, rfl⟩ := List.mem_map.mp h1
  refine ⟨?_, by simpa using h2⟩
  cases hc : c.username with
  | none => simp [displayNameOf]
  | some s => by_cases hs : s = "" <;> simp [displayNameOf, hs]

/-- Claim C4, counterexample: two healthy instance snapshots each
contributed by a distinct session named `"alice"` (each snapshot exactly
what `updatePodUserCount` stores for one such session) make the gateway
push a `user_list` whose `users` field is `["alice", "alice"]` — the code
concatenates the per-instance name lists without deduplication, so the
pushed list is not duplicate-free. -/
theorem user_list_not_duplicate_free :
    podUsernames [{ clientId := "a1", username := some "alice", isOpen := true }] = ["alice"]
    ∧ broadcastAggregatedStats true
        [{ clientId := "a1", username := some "alice", isOpen := true }]
        [aliceEntry "p1", aliceEntry "p2"] 10 =
      [("a1", .stats 2 10), ("a1", .userList ["alice", "alice"] 10)]
    ∧ ¬ (["alice", "alice"] : List String).Nodup := by
  refine ⟨rfl, rfl, by decide⟩

/-- Claim C4, amended: the `users` field of every aggregated `user_list`
message equals the concatenation, over all non-expired instance snapshots
in key-scan order, of each instance's stored name list; when every stored
snapshot was produced by `updatePodUserCount` from some client list, the
pushed list contains no empty and no `"Anonymous"` entries, but it is not
deduplicated — a name occurs once per contributing session per instance. -/
theorem user_list_concat_no_empty_no_anon (cs : List Client)
    (store : List PresenceEntry) (now : Nat)
    (hsnap : ∀ e ∈ store, ∃ l : List Client, e.snapshot.usernames = podUsernames l) :
    (∃ total, broadcastAggregatedStats true cs store now =
      broadcastToLocalClients cs (.stats total now) ++
        broadcastToLocalClients cs (.userList (aggregatedUserList store now) now))
    ∧ (∀ u ∈ aggregatedUserList store now, u ≠ "" ∧ u ≠ "Anonymous") := by
  constructor
  · refine ⟨((keysMatching store now).map (fun e => e.snapshot)).foldl
      (fun a p => a + p.count) 0, ?_⟩
    simp [broadcastAggregatedStats, aggregatedUserList, foldl_append_usernames,
      List.map_map, Function.comp_def]
  · intro u hu
    unfold aggregatedUserList at hu
    rw [List.mem_flatten] at hu
    obtain ⟨us, hus, hu'⟩ := hu
    obtain ⟨e, he, rfl⟩ := List.mem_map.mp hus
    obtain ⟨l, hl⟩ := hsnap e (List.mem_of_mem_filter he)
    rw [hl] at hu'
    exact podUsernames_mem l u hu'

/-- Witness for `user_list_concat_no_empty_no_anon` at the duplicate-name
store. -/
theorem user_list_concat_no_empty_no_anon_witness :
    (∀ e ∈ [aliceEntry "p1", aliceEntry "p2"],
      ∃ l : List Client, e.snapshot.usernames = podUsernames l)
    ∧ (∀ u ∈ aggregatedUserList [aliceEntry "p1", aliceEntry "p2"] 10,
        u ≠ "" ∧ u ≠ "Anonymous") := by
  have hsnap : ∀ e ∈ [aliceEntry "p1", aliceEntry "p2"],
      ∃ l : List Client, e.snapshot.usernames = podUsernames l := by
    intro e he
    rcases List.mem_cons.mp he with rfl | he'
    · exact ⟨[{ clientId := "a1", username := some "alice", isOpen := true }], rfl⟩
    · rcases List.mem_cons.mp he' with rfl | he''
      · exact ⟨[{ clientId := "a1", username := some "alice", isOpen := true }], rfl⟩
      · exact absurd he'' (List.not_mem_nil e)
  exact ⟨hsnap, (user_list_concat_no_empty_no_anon [] _ 10 hsnap).2⟩

/-- Distinct pod ids store under distinct Redis keys. -/
theorem podKey_inj {a b : String} (h : podKey a = podKey b) : a = b := by
  unfold podKey at h
  have hd : ("pod:" ++ a ++ ":users").data = ("pod:" ++ b ++ ":users").data := by rw [h]
  simp only [String.data_append] at hd
  have h2 := (List.append_left_inj _).mp hd
  have h3 := (List.append_right_inj _).mp h2
  cases a
  cases b
  exact congrArg String.mk h3

/-- Claim C8: the 30-second tick and every membership-change handler
(connection open, close, identity set is below) store this pod's snapshot
under its own key with a 60-second expiry; once the pod stops writing, the
entry is absent from every key scan at or after `t0 + 60` — other pods'
own writes never refresh it, nothing deletes it explicitly — and the
aggregation that builds the `stats`/`user_list` pushes behaves exactly as
if the stale entry were gone. -/
theorem presence_ttl_self_healing (podId : String) (cs cs2 : List Client)
    (store : List PresenceEntry) (nid cid : String) (t0 t : Nat)
    (h : t0 + 60 ≤ t) :
    ((intervalTick true podId cs store t0).store = updatePodUserCount true podId cs store t0)
    ∧ ((handleConnection true podId cs store nid t0).store =
        updatePodUserCount true podId
          (cs ++ [{ clientId := nid, username := none, isOpen := true }]) store t0)
    ∧ ((handleClose true podId cs store cid t0).store =
        updatePodUserCount true podId (cs.filter (fun c => c.clientId ≠ cid)) store t0)
    ∧ ((updatePodUserCount true podId cs store t0).find? (fun e => e.key = podKey podId) =
        some { key := podKey podId,
               snapshot := { count := cs.length, usernames := podUsernames cs, timestamp := t0 },
               expiresAt := t0 + 60 })
    ∧ (∀ e ∈ keysMatching (updatePodUserCount true podId cs store t0) t,
        e.key ≠ podKey podId)
    ∧ (∀ q, q ≠ podId →
        ∀ e ∈ keysMatching
          (updatePodUserCount true q cs2 (updatePodUserCount true podId cs store t0) t) t,
          e.key ≠ podKey podId)
    ∧ (broadcastAggregatedStats true cs2 (updatePodUserCount true podId cs store t0) t =
        broadcastAggregatedStats true cs2
          ((updatePodUserCount true podId cs store t0).filter
            (fun e => e.key ≠ podKey podId)) t) := by
  have hstale : ∀ e ∈ keysMatching (updatePodUserCount true podId cs store t0) t,
      e.key ≠ podKey podId := by
    intro e he
    have hmem := List.mem_of_mem_filter he
    have hexp : t < e.expiresAt := by simpa using List.of_mem_filter he
    simp only [updatePodUserCount, setEx, if_pos] at hmem
    rcases List.mem_append.mp hmem with hin | hnew
    · simpa using List.of_mem_filter hin
    · obtain rfl := List.mem_singleton.mp hnew
      simp only at hexp
      exact absurd hexp (by simpa using Nat.not_lt.mpr h)
  refine ⟨?_, rfl, rfl, ?_, hstale, ?_, ?_⟩
  · simp [intervalTick, broadcastStats, Bool.or_true]
  · have h1 : (store.filter (fun e => e.key ≠ podKey podId)).find?
        (fun e => e.key = podKey podId) = none := by
      rw [List.find?_eq_none]
      intro x hx
      simpa using List.of_mem_filter hx
    simp [updatePodUserCount, setEx, List.find?_append, h1]
  · intro q hq e he
    have hmem := List.mem_of_mem_filter he
    have hexp : t < e.expiresAt := by simpa using List.of_mem_filter he
    simp only [updatePodUserCount, setEx, if_true] at hmem
    rcases List.mem_append.mp hmem with hin | hnew
    · exact hstale e (List.mem_filter.mpr
        ⟨List.mem_of_mem_filter hin, by simpa using hexp⟩)
    · obtain rfl := List.mem_singleton.mp hnew
      exact fun hk => hq (podKey_inj hk)
  · have hk : keysMatching ((updatePodUserCount true podId cs store t0).filter
        (fun e => e.key ≠ podKey podId)) t =
        keysMatching (updatePodUserCount true podId cs store t0) t := by
      unfold keysMatching
      rw [List.filter_filter]
      apply List.filter_congr
      intro e he'
      by_cases ht : t < e.expiresAt
      · have hkey : e.key ≠ podKey podId :=
          hstale e (List.mem_filter.mpr ⟨he', by simpa using ht⟩)
        simp [ht, hkey]
      · simp [ht]
    have hcong : ∀ s1 s2 : List PresenceEntry, keysMatching s1 t = keysMatching s2 t →
        broadcastAggregatedStats true cs2 s1 t = broadcastAggregatedStats true cs2 s2 t := by
      intro s1 s2 hs
      simp [broadcastAggregatedStats, hs]
    exact hcong _ _ hk.symm

/-- Witness for `presence_ttl_self_healing`: a pod that last wrote at time
0 is absent from the scan at time 60. -/
theorem presence_ttl_self_healing_witness :
    0 + 60 ≤ 60
    ∧ (∀ e ∈ keysMatching (updatePodUserCount true "p" [] [] 0) 60,
        e.key ≠ podKey "p") :=
  ⟨by decide,
    (presence_ttl_self_healing "p" [] [] [] "n" "c" 0 60 (by decide)).2.2.2.2.1⟩

/-- Destructuring any entry that is not `null`/`undefined` succeeds (the
entry is then either skipped or yields a write). -/
theorem processEntry_ok (e : JValue) (h1 : e ≠ .null) (h2 : e ≠ .undefined) :
    ∃ r, processEntry e = .ok r := by
  cases e <;> first | exact ⟨_, rfl⟩ | simp_all

/-- Unfolding `validWrites` over the head entry. -/
theorem validWrites_cons (e : JValue) (es : List JValue) :
    validWrites (e :: es) =
      (match processEntry e with
       | .ok (some kc) => kc :: validWrites es
       | _ => validWrites es) := by
  unfold validWrites
  rw [List.filterMap_cons]
  cases hpe : processEntry e with
  | error u => simp [hpe]
  | ok r => cases r <;> simp [hpe]

/-- The batch loop over throw-free entries succeeds and equals the fold of
the valid writes. -/
theorem batch_fold_ok (entries : List JValue)
    (h : ∀ e ∈ entries, e ≠ .null ∧ e ≠ .undefined) :
    ∀ acc : List ((JNum × JNum) × String),
      entries.foldlM
        (fun acc e => (processEntry e).map (fun r =>
          match r with
          | none => acc
          | some (k, c) => upsertKey acc k c)) acc =
      .ok ((validWrites entries).foldl (fun a kc => upsertKey a kc.1 kc.2) acc) := by
  induction entries with
  | nil => intro acc; rfl
  | cons e es ih =>
    intro acc
    obtain ⟨r, hr⟩ := processEntry_ok e (h e (List.mem_cons_self e es)).1
      (h e (List.mem_cons_self e es)).2
    have htail : ∀ x ∈ es, x ≠ JValue.null ∧ x ≠ JValue.undefined :=
      fun x hx => h x (List.mem_cons_of_mem e hx)
    rw [List.foldlM_cons, hr, validWrites_cons, hr]
    cases r with
    | none => simpa using ih htail acc
    | some kc =>
      obtain ⟨k, c⟩ := kc
      simpa using ih htail (upsertKey acc k c)

/-- Keys of the accumulator after one upsert. -/
theorem upsertKey_keys (al : List ((JNum × JNum) × String)) (k : JNum × JNum)
    (c : String) :
    (upsertKey al k c).map Prod.fst =
      if al.any (fun kc => kc.1 = k) then al.map Prod.fst
      else al.map Prod.fst ++ [k] := by
  unfold upsertKey
  split
  · simp only [List.map_map]
    refine List.map_congr_left ?_
    intro kc _
    by_cases hkc : kc.1 = k <;> simp [hkc, Function.comp]
  · simp

/-- Folding upserts keeps the key list duplicate-free and its key set is
the accumulator's keys joined with the written keys. -/
theorem fold_upsert_keys (l : List ((JNum × JNum) × String)) :
    ∀ al : List ((JNum × JNum) × String), (al.map Prod.fst).Nodup →
      (((l.foldl (fun a kc => upsertKey a kc.1 kc.2) al).map Prod.fst).Nodup
      ∧ ∀ k, k ∈ (l.foldl (fun a kc => upsertKey a kc.1 kc.2) al).map Prod.fst ↔
          (k ∈ al.map Prod.fst ∨ k ∈ l.map Prod.fst)) := by
  induction l with
  | nil =>
    intro al h
    exact ⟨h, fun k => by simp⟩
  | cons kc rest ih =>
    intro al h
    rw [List.foldl_cons]
    have hkeys := upsertKey_keys al kc.1 kc.2
    by_cases hany : al.any (fun p => p.1 = kc.1) = true
    · rw [if_pos hany] at hkeys
      have h' : ((upsertKey al kc.1 kc.2).map Prod.fst).Nodup := hkeys ▸ h
      obtain ⟨n1, m1⟩ := ih (upsertKey al kc.1 kc.2) h'
      refine ⟨n1, fun k => ?_⟩
      rw [m1 k, hkeys]
      have hmem : kc.1 ∈ al.map Prod.fst := by
        obtain ⟨p, hp, hpk⟩ := List.any_eq_true.mp hany
        exact List.mem_map.mpr ⟨p, hp, by simpa using hpk⟩
      simp only [List.map_cons, List.mem_cons]
      constructor
      · rintro (hal | hrest)
        · exact Or.inl hal
        · exact Or.inr (Or.inr hrest)
      · rintro (hal | hk | hrest)
        · exact Or.inl hal
        · exact Or.inl (hk ▸ hmem)
        · exact Or.inr hrest
    · rw [if_neg hany] at hkeys
      have hnotmem : kc.1 ∉ al.map Prod.fst := by
        intro hmem
        obtain ⟨p, hp, hpk⟩ := List.mem_map.mp hmem
        exact hany (List.any_eq_true.mpr ⟨p, hp, by simpa using hpk⟩)
      have h' : ((upsertKey al kc.1 kc.2).map Prod.fst).Nodup := by
        rw [hkeys]
        simp [List.nodup_append, h, hnotmem]
      obtain ⟨n1, m1⟩ := ih (upsertKey al kc.1 kc.2) h'
      refine ⟨n1, fun k => ?_⟩
      rw [m1 k, hkeys]
      simp only [List.mem_append, List.mem_singleton, List.map_cons, List.mem_cons]
      tauto

/-- Overwriting the entry at key `k0` leaves lookups of other keys
unchanged. -/
theorem find?_map_overwrite (al : List ((JNum × JNum) × String))
    (k0 : JNum × JNum) (c0 : String) (k : JNum × JNum) (hk : k ≠ k0) :
    (al.map (fun kc => if kc.1 = k0 then (k0, c0) else kc)).find?
        (fun kc => kc.1 = k) =
      al.find? (fun kc => kc.1 = k) := by
  induction al with
  | nil => rfl
  | cons kc rest ih =>
    simp only [List.map_cons]
    by_cases h : kc.1 = k0
    · rw [if_pos h]
      rw [List.find?_cons_of_neg _ (by simp [Ne.symm hk]),
        List.find?_cons_of_neg _ (by simp [h]; exact fun hkk => hk (hkk ▸ rfl))]
      exact ih
    · rw [if_neg h]
      by_cases hka : kc.1 = k
      · rw [List.find?_cons_of_pos _ (by simp [hka]),
          List.find?_cons_of_pos _ (by simp [hka])]
      · rw [List.find?_cons_of_neg _ (by simp [hka]),
          List.find?_cons_of_neg _ (by simp [hka])]
        exact ih

/-- When key `k0` is present, the overwritten list's entry at `k0` is the
new pair. -/
theorem find?_map_overwrite_hit (al : List ((JNum × JNum) × String))
    (k0 : JNum × JNum) (c0 : String)
    (h : al.any (fun kc => kc.1 = k0) = true) :
    (al.map (fun kc => if kc.1 = k0 then (k0, c0) else kc)).find?
        (fun kc => kc.1 = k0) = some (k0, c0) := by
  induction al with
  | nil => simp at h
  | cons kc rest ih =>
    simp only [List.map_cons]
    by_cases hkc : kc.1 = k0
    · rw [if_pos hkc]
      rw [List.find?_cons_of_pos _ (by simp)]
    · rw [if_neg hkc]
      rw [List.find?_cons_of_neg _ (by simp [hkc])]
      refine ih ?_
      rcases List.any_eq_true.mp h with ⟨p, hp, hpk⟩
      rcases List.mem_cons.mp hp with rfl | hp'
      · exact absurd (by simpa using hpk) hkc
      · exact List.any_eq_true.mpr ⟨p, hp', hpk⟩

/-- Lookup after one upsert: the upserted key now maps to the new color,
other keys are untouched. -/
theorem lookup_upsert (al : List ((JNum × JNum) × String)) (k0 : JNum × JNum)
    (c0 : String) (k : JNum × JNum) :
    lookupKey (upsertKey al k0 c0) k =
      if k = k0 then some c0 else lookupKey al k := by
  unfold upsertKey lookupKey
  by_cases hany : al.any (fun kc => kc.1 = k0) = true
  · rw [if_pos hany]
    by_cases hk : k = k0
    · subst hk
      rw [find?_map_overwrite_hit al k c0 hany]
      simp
    · rw [find?_map_overwrite al k0 c0 k hk, if_neg hk]
  · rw [if_neg hany, List.find?_append]
    by_cases hk : k = k0
    · subst hk
      have hnone : al.find? (fun kc => kc.1 = k) = none := by
        rw [List.find?_eq_none]
        intro x hx
        simp only [decide_eq_true_eq]
        intro hxk
        exact hany (List.any_eq_true.mpr ⟨x, hx, by simpa using hxk⟩)
      simp [hnone]
    · have hsingle : ([(k0, c0)].find? (fun kc => kc.1 = k)) = none := by
        rw [List.find?_eq_none]
        intro x hx
        obtain rfl := List.mem_singleton.mp hx
        simp [Ne.symm hk]
      simp [hsingle, if_neg hk]

/-- Peeling the head write off `lastWrite`. -/
theorem lastWrite_cons (kc : (JNum × JNum) × String)
    (rest : List ((JNum × JNum) × String)) (k : JNum × JNum) :
    lastWrite (kc :: rest) k =
      (lastWrite rest k).or (if kc.1 = k then some kc.2 else none) := by
  unfold lastWrite
  rw [List.reverse_cons, List.find?_append]
  cases hfind : rest.reverse.find? (fun p => p.1 = k) with
  | some v => simp [hfind]
  | none => by_cases hkc : kc.1 = k <;> simp [hfind, hkc]

/-- Looking a key up in the folded accumulator returns the last write to
that key, falling back to the initial accumulator. -/
theorem lookup_fold_lastWrite (l : List ((JNum × JNum) × String)) :
    ∀ (al : List ((JNum × JNum) × String)) (k : JNum × JNum),
      lookupKey (l.foldl (fun a kc => upsertKey a kc.1 kc.2) al) k =
        (lastWrite l k).or (lookupKey al k) := by
  induction l with
  | nil =>
    intro al k
    simp [lastWrite]
  | cons kc rest ih =>
    intro al k
    rw [List.foldl_cons, ih, lookup_upsert, lastWrite_cons]
    cases hrw : lastWrite rest k with
    | some v => simp
    | none =>
      by_cases hkc : kc.1 = k
      · simp [hkc, Option.or]
      · simp [hkc, if_neg (Ne.symm hkc), Option.or]

/-- Claim C10, counterexample: a `null` entry in the `pixels` array makes
the destructuring `const (x, y, color) = pixel` throw, so the endpoint
responds 500 `"Failed to update pixels"` — it does fail because of an
invalid entry instead of skipping it and reporting success. -/
theorem null_batch_entry_causes_500 :
    putPixels true (.arr [.null]) =
      { status := 500, success := false, updated := none,
        errorMsg := some "Failed to update pixels" } := rfl

/-- Claim C10, amended: for every `PUT /api/pixels` body whose `pixels`
field is an array containing no `null`/`undefined` entry, the endpoint
never fails because of an invalid entry — entries with non-numeric or
out-of-bounds coordinates or a color not matching `^#[0-9A-F]{6}$`
(case-insensitive) are silently skipped, the remaining valid entries are
written with the last entry winning per coordinate, and the response is a
200 success whose `updated` equals the number of distinct coordinates
written.  (An array containing `null` or `undefined` instead yields the
500 response of the counterexample.) -/
theorem batch_endpoint_skips_invalid (entries : List JValue)
    (h : ∀ e ∈ entries, e ≠ .null ∧ e ≠ .undefined) :
    ∃ updates, batchUpdates entries = .ok updates
    ∧ putPixels true (.arr entries) =
        { status := 200, success := true, updated := some updates.length,
          errorMsg := none }
    ∧ (updates.map Prod.fst).Nodup
    ∧ (∀ k, lookupKey updates k = lastWrite (validWrites entries) k)
    ∧ updates.length = ((validWrites entries).map Prod.fst).toFinset.card := by
  have hfold : batchUpdates entries =
      .ok ((validWrites entries).foldl (fun a kc => upsertKey a kc.1 kc.2) []) := by
    unfold batchUpdates
    exact batch_fold_ok entries h []
  obtain ⟨hnodup, hmem⟩ :=
    fold_upsert_keys (validWrites entries) [] (by simp)
  refine ⟨(validWrites entries).foldl (fun a kc => upsertKey a kc.1 kc.2) [],
    hfold, ?_, hnodup, ?_, ?_⟩
  · simp [putPixels, hfold]
  · intro k
    rw [lookup_fold_lastWrite (validWrites entries) [] k]
    simp [lookupKey]
  · have hset : (((validWrites entries).foldl
        (fun a kc => upsertKey a kc.1 kc.2) []).map Prod.fst).toFinset =
        ((validWrites entries).map Prod.fst).toFinset := by
      ext a
      simp only [List.mem_toFinset, hmem a]
      simp
    calc ((validWrites entries).foldl (fun a kc => upsertKey a kc.1 kc.2) []).length
        = (((validWrites entries).foldl
            (fun a kc => upsertKey a kc.1 kc.2) []).map Prod.fst).length := by
          rw [List.length_map]
      _ = (((validWrites entries).foldl
            (fun a kc => upsertKey a kc.1 kc.2) []).map Prod.fst).toFinset.card :=
          (List.toFinset_card_of_nodup hnodup).symm
      _ = ((validWrites entries).map Prod.fst).toFinset.card := by rw [hset]

/-- Witness for `batch_endpoint_skips_invalid`: a batch with a skipped
malformed entry and two writes to the same coordinate (last one winning)
reports one distinct updated coordinate. -/
theorem batch_endpoint_skips_invalid_witness :
    (∀ e ∈ [JValue.obj [("x", .num (.fin 1)), ("y", .num (.fin 2)), ("color", .str "#FF0000")],
            JValue.str "junk",
            JValue.obj [("x", .num (.fin 1)), ("y", .num (.fin 2)), ("color", .str "#00FF00")]],
      e ≠ JValue.null ∧ e ≠ JValue.undefined)
    ∧ putPixels true (.arr
        [JValue.obj [("x", .num (.fin 1)), ("y", .num (.fin 2)), ("color", .str "#FF0000")],
         JValue.str "junk",
         JValue.obj [("x", .num (.fin 1)), ("y", .num (.fin 2)), ("color", .str "#00FF00")]]) =
      { status := 200, success := true, updated := some 1, errorMsg := none }
    ∧ lookupKey [((JNum.fin 1, JNum.fin 2), "#00FF00")] (JNum.fin 1, JNum.fin 2) =
        some "#00FF00" := by
  have h : ∀ e ∈ [JValue.obj [("x", .num (.fin 1)), ("y", .num (.fin 2)), ("color", .str "#FF0000")],
      JValue.str "junk",
      JValue.obj [("x", .num (.fin 1)), ("y", .num (.fin 2)), ("color", .str "#00FF00")]],
      e ≠ JValue.null ∧ e ≠ JValue.undefined := by
    intro e he
    rcases List.mem_cons.mp he with rfl | he'
    · exact ⟨fun hx => JValue.noConfusion hx, fun hx => JValue.noConfusion hx⟩
    · rcases List.mem_cons.mp he' with rfl | he''
      · exact ⟨fun hx => JValue.noConfusion hx, fun hx => JValue.noConfusion hx⟩
      · rcases List.mem_cons.mp he'' with rfl | he'''
        · exact ⟨fun hx => JValue.noConfusion hx, fun hx => JValue.noConfusion hx⟩
        · exact absurd he''' (List.not_mem_nil e)
  obtain ⟨updates, hup, hresp, -, -, -⟩ := batch_endpoint_skips_invalid _ h
  have hupdates : updates = [((JNum.fin 1, JNum.fin 2), "#00FF00")] := by
    have : batchUpdates
        [JValue.obj [("x", .num (.fin 1)), ("y", .num (.fin 2)), ("color", .str "#FF0000")],
         JValue.str "junk",
         JValue.obj [("x", .num (.fin 1)), ("y", .num (.fin 2)), ("color", .str "#00FF00")]] =
        .ok [((JNum.fin 1, JNum.fin 2), "#00FF00")] := rfl
    rw [this] at hup
    exact (Except.ok.injEq _ _ ▸ hup.symm : _)
  refine ⟨h, ?_, rfl⟩
  rw [hresp, hupdates]
  rfl
